import Mathlib

/-!
Verification of the grid-resampling core of the Queensland-in-Motion scripts.

The scripts interpolate scattered (longitude, latitude, value) samples onto a
regular grid: a primary piecewise-linear estimate (scipy `griddata` with
`method="linear"`, i.e. barycentric interpolation over a triangulation of the
samples, undefined outside their convex hull) combined, in `x_2d.py`, with a
total nearest-neighbour fallback (`griddata` with `method="nearest"`), via
`np.where(np.isnan(lin), near, lin)`.

Coordinates and values are embedded as rationals; a missing cell value
("NaN" in the scripts) is embedded as `none : Option ℚ`.  The third-party
interpolation routines are external to the repository, so their semantics is
modelled from the spec where noted; everything that the repository's own code
decides (the fallback combination, grid shape, batch skipping, colour-range
computation, sentinel cleaning, nearest-grid-point lookup) is translated
directly from the source.
-/

namespace QM

/-- A scattered sample: `x` = longitude, `y` = latitude, `value` = the measured
quantity (`pts_lon`, `pts_lat`, `pts_elev` in `x_2d.py`; `points`/`values` in
`3d.py`). -/
structure SamplePoint where
  x : ℚ
  y : ℚ
  value : ℚ
deriving DecidableEq

/-- A dense raster: rows indexed by latitude, columns by longitude; a cell is
`none` when the scripts would hold NaN there. -/
abbrev Grid := List (List (Option ℚ))

/-- Squared Euclidean distance in the (x, y) plane.  The scripts' nearest
lookup minimises the Euclidean distance; minimising its square is
equivalent and stays inside ℚ. -/
def sqDist (px py qx qy : ℚ) : ℚ := (px - qx) ^ 2 + (py - qy) ^ 2

/-- Twice the signed area of the triangle `(x1,y1) (x2,y2) (x3,y3)`. -/
def orient (x1 y1 x2 y2 x3 y3 : ℚ) : ℚ :=
  (x2 - x1) * (y3 - y1) - (x3 - x1) * (y2 - y1)

/-- Generic fold keeping the element with the strictly smallest key; on ties
the earlier element wins, matching `np.argmin`'s first-minimum convention. -/
def minBy (key : α → ℚ) (a : α) (l : List α) : α :=
  l.foldl (fun b s => if key s < key b then s else b) a

theorem minBy_mem (key : α → ℚ) (a : α) (l : List α) :
    minBy key a l ∈ a :: l := by
  induction l generalizing a with
  | nil => simp [minBy]
  | cons v rest ih =>
    have hfold : minBy key a (v :: rest) =
        minBy key (if key v < key a then v else a) rest := by
      simp [minBy]
    rw [hfold]
    rcases List.mem_cons.mp (ih (if key v < key a then v else a)) with h | h
    · rw [h]; split <;> simp
    · simp [h]

theorem minBy_le (key : α → ℚ) (a : α) (l : List α) :
    ∀ u ∈ a :: l, key (minBy key a l) ≤ key u := by
  induction l generalizing a with
  | nil => intro u hu; simp at hu; simp [minBy, hu]
  | cons v rest ih =>
    intro u hu
    have hfold : minBy key a (v :: rest) =
        minBy key (if key v < key a then v else a) rest := by
      simp [minBy]
    have step : key (if key v < key a then v else a) ≤ key a ∧
        key (if key v < key a then v else a) ≤ key v := by
      split
      · exact ⟨le_of_lt (by assumption), le_refl _⟩
      · exact ⟨le_refl _, le_of_not_lt (by assumption)⟩
    have hhead := ih (if key v < key a then v else a)
        (if key v < key a then v else a) (List.mem_cons_self _ _)
    rcases List.mem_cons.mp hu with rfl | hu
    · rw [hfold]; exact le_trans hhead step.1
    · rcases List.mem_cons.mp hu with rfl | hu
      · rw [hfold]; exact le_trans hhead step.2
      · rw [hfold]
        exact ih (if key v < key a then v else a) u (List.mem_cons_of_mem _ hu)

/-- Nearest-neighbour lookup.  Modelled from the spec: the scripts' fallback
pass (`griddata(..., method="nearest")` in `x_2d.py` line 40) assigns every
query point the value of its closest sample by Euclidean distance in (x, y);
ties are broken towards the earlier sample. -/
def nearestSample (samples : List SamplePoint) (qx qy : ℚ) : Option SamplePoint :=
  match samples with
  | [] => none
  | s :: rest => some (minBy (fun p => sqDist p.x p.y qx qy) s rest)

/-- Barycentric (piecewise-linear) evaluation of the sample values of a
triangle `a b c` at the query `(qx, qy)`: each vertex value is weighted by the
sub-triangle area opposite to it, normalised by the triangle's area. -/
def barycentricValue (a b c : SamplePoint) (qx qy : ℚ) : ℚ :=
  (orient qx qy b.x b.y c.x c.y / orient a.x a.y b.x b.y c.x c.y) * a.value +
    (orient a.x a.y qx qy c.x c.y / orient a.x a.y b.x b.y c.x c.y) * b.value +
    (orient a.x a.y b.x b.y qx qy / orient a.x a.y b.x b.y c.x c.y) * c.value

/-- Containment of `(qx, qy)` in the closed triangle `a b c` (boundary
included), decided by the signs of the three sub-triangle orientations;
degenerate triangles contain nothing. -/
def inTriangle (a b c : SamplePoint) (qx qy : ℚ) : Bool :=
  let d := orient a.x a.y b.x b.y c.x c.y
  let d1 := orient qx qy b.x b.y c.x c.y
  let d2 := orient a.x a.y qx qy c.x c.y
  let d3 := orient a.x a.y b.x b.y qx qy
  if 0 < d then decide (0 ≤ d1) && decide (0 ≤ d2) && decide (0 ≤ d3)
  else if d < 0 then decide (d1 ≤ 0) && decide (d2 ≤ 0) && decide (d3 ≤ 0)
  else false

/-- The (unique) triangulation of three samples: every query inside the
triangle is assigned that triangle, every query outside the convex hull gets
nothing.  Used to instantiate the abstract triangulation on concrete inputs. -/
def triOfThree (a b c : SamplePoint) (qx qy : ℚ) :
    Option (SamplePoint × SamplePoint × SamplePoint) :=
  if inTriangle a b c qx qy then some (a, b, c) else none

/-- Primary estimate.  Modelled from the spec: `griddata(..., method="linear",
fill_value=np.nan)` (`x_2d.py` line 37, `3d.py` line 24) interpolates
piecewise-linearly over the Delaunay triangulation of the samples and yields
NaN outside their convex hull.  The triangulation itself is third-party code,
so it enters as the parameter `tri`, which picks for each query point either a
triangle of samples containing it or `none` (outside the hull); the value on a
triangle is its barycentric interpolation. -/
def linInterp (tri : ℚ → ℚ → Option (SamplePoint × SamplePoint × SamplePoint))
    (qx qy : ℚ) : Option ℚ :=
  (tri qx qy).map (fun t => barycentricValue t.1 t.2.1 t.2.2 qx qy)

/-- Cellwise `np.where(np.isnan(lin), near, lin)` (`x_2d.py` line 45): keep the
linear estimate where it is defined, otherwise use the fallback. -/
def whereIsNaN (lin near : Option ℚ) : Option ℚ :=
  match lin with
  | some v => some v
  | none => near

/-- The resampled value of one cell of the `x_2d.py` pipeline: linear estimate
where defined, else the nearest-sample fallback value. -/
def gridElevCell (tri : ℚ → ℚ → Option (SamplePoint × SamplePoint × SamplePoint))
    (samples : List SamplePoint) (qx qy : ℚ) : Option ℚ :=
  whereIsNaN (linInterp tri qx qy) ((nearestSample samples qx qy).map SamplePoint.value)

/-- First component of `np.meshgrid(xs, ys)`: row `i`, column `j` holds
`xs[j]`. -/
def meshgridX (xs ys : List ℚ) : List (List ℚ) := ys.map (fun _ => xs)

/-- Second component of `np.meshgrid(xs, ys)`: row `i`, column `j` holds
`ys[i]`. -/
def meshgridY (xs ys : List ℚ) : List (List ℚ) := ys.map (fun y => xs.map (fun _ => y))

/-- Elementwise evaluation of a two-argument function over a pair of
coordinate rasters, as `griddata` does over `(XI, YI)`. -/
def gridEval (f : ℚ → ℚ → α) (X Y : List (List ℚ)) : List (List α) :=
  List.zipWith (fun xr yr => List.zipWith f xr yr) X Y

/-- Array `grid_elev_lin` of `x_2d.py` (lines 37-39): the linear estimate evaluated
over the meshgrid of the axes; `none` models the NaN fill value. -/
def grid_elev_lin (tri : ℚ → ℚ → Option (SamplePoint × SamplePoint × SamplePoint))
    (lonAxis latAxis : List ℚ) : Grid :=
  gridEval (fun x y => linInterp tri x y) (meshgridX lonAxis latAxis) (meshgridY lonAxis latAxis)

/-- Array `grid_elev_near` of `x_2d.py` (lines 40-42): the nearest-neighbour
fallback evaluated over the meshgrid of the axes. -/
def grid_elev_near (samples : List SamplePoint) (lonAxis latAxis : List ℚ) : Grid :=
  gridEval (fun x y => (nearestSample samples x y).map SamplePoint.value)
    (meshgridX lonAxis latAxis) (meshgridY lonAxis latAxis)

/-- Array `grid_elev` of `x_2d.py` (line 45): `np.where(np.isnan(lin), near, lin)`
applied elementwise to the two estimate rasters. -/
def grid_elev (tri : ℚ → ℚ → Option (SamplePoint × SamplePoint × SamplePoint))
    (samples : List SamplePoint) (lonAxis latAxis : List ℚ) : Grid :=
  List.zipWith (List.zipWith whereIsNaN) (grid_elev_lin tri lonAxis latAxis)
    (grid_elev_near samples lonAxis latAxis)

/-- Arrays `terrain_data` of `3d.py` (line 24) and `elevation_grid` of `x_3d.py`
(line 32): the linear estimate alone, with no fallback pass. -/
def terrain_data (tri : ℚ → ℚ → Option (SamplePoint × SamplePoint × SamplePoint))
    (lonAxis latAxis : List ℚ) : Grid :=
  grid_elev_lin tri lonAxis latAxis

/-- Row `i`, column `j` of a nested list, `none` when out of range. -/
def cellAt2 (g : List (List α)) (i j : Nat) : Option α :=
  g[i]?.bind (fun row => row[j]?)

theorem zipWith_const_map (f : ℚ → ℚ → α) (xs : List ℚ) (y : ℚ) :
    List.zipWith f xs (xs.map fun _ => y) = xs.map (fun x => f x y) := by
  induction xs with
  | nil => rfl
  | cons x xs ih => simp only [List.map_cons, List.zipWith_cons_cons, ih]

theorem zipWith_map_same (k : α → β → γ) (f : δ → α) (g : δ → β) (l : List δ) :
    List.zipWith k (l.map f) (l.map g) = l.map (fun x => k (f x) (g x)) := by
  induction l with
  | nil => rfl
  | cons x xs ih => simp only [List.map_cons, List.zipWith_cons_cons, ih]

theorem gridEval_mesh (f : ℚ → ℚ → α) (lonAxis latAxis : List ℚ) :
    gridEval f (meshgridX lonAxis latAxis) (meshgridY lonAxis latAxis) =
      latAxis.map (fun la => lonAxis.map (fun lo => f lo la)) := by
  unfold gridEval meshgridX meshgridY
  rw [zipWith_map_same]
  exact List.map_congr_left (fun la _ => zipWith_const_map f lonAxis la)

theorem grid_elev_eq (tri : ℚ → ℚ → Option (SamplePoint × SamplePoint × SamplePoint))
    (samples : List SamplePoint) (lonAxis latAxis : List ℚ) :
    grid_elev tri samples lonAxis latAxis =
      latAxis.map (fun la => lonAxis.map (fun lo => gridElevCell tri samples lo la)) := by
  unfold grid_elev grid_elev_lin grid_elev_near
  rw [gridEval_mesh, gridEval_mesh, zipWith_map_same]
  exact List.map_congr_left (fun la _ => zipWith_map_same _ _ _ lonAxis)

theorem orient_degen_ab (x1 y1 x3 y3 : ℚ) : orient x1 y1 x1 y1 x3 y3 = 0 := by
  unfold orient; ring

theorem orient_degen_ac (x1 y1 x2 y2 : ℚ) : orient x1 y1 x2 y2 x1 y1 = 0 := by
  unfold orient; ring

theorem orient_degen_bc (x1 y1 x2 y2 : ℚ) : orient x1 y1 x2 y2 x2 y2 = 0 := by
  unfold orient; ring

theorem bary_vertex_a (a b c : SamplePoint)
    (hd : orient a.x a.y b.x b.y c.x c.y ≠ 0) :
    barycentricValue a b c a.x a.y = a.value := by
  unfold barycentricValue
  rw [orient_degen_ab, orient_degen_ac, div_self hd]
  ring

theorem bary_vertex_b (a b c : SamplePoint)
    (hd : orient a.x a.y b.x b.y c.x c.y ≠ 0) :
    barycentricValue a b c b.x b.y = b.value := by
  unfold barycentricValue
  rw [orient_degen_ab, orient_degen_bc, div_self hd]
  ring

theorem bary_vertex_c (a b c : SamplePoint)
    (hd : orient a.x a.y b.x b.y c.x c.y ≠ 0) :
    barycentricValue a b c c.x c.y = c.value := by
  unfold barycentricValue
  rw [orient_degen_ac, orient_degen_bc, div_self hd]
  ring

theorem nearestSample_spec (samples : List SamplePoint) (qx qy : ℚ)
    (hs : samples ≠ []) :
    ∃ t, nearestSample samples qx qy = some t ∧ t ∈ samples ∧
      ∀ u ∈ samples, sqDist t.x t.y qx qy ≤ sqDist u.x u.y qx qy := by
  match samples with
  | [] => exact absurd rfl hs
  | s :: rest =>
    refine ⟨minBy (fun p => sqDist p.x p.y qx qy) s rest, rfl, ?_, ?_⟩
    · exact minBy_mem _ s rest
    · exact minBy_le _ s rest

/-- C1 counterexample: with the three non-collinear samples (0,0,10), (1,0,20),
(0,1,30) and the non-empty axes [0,1] × [0,1] (the linspace over the sample
bounding box, as in `3d.py`), the `terrain_data` grid of `3d.py` — produced by
the resample step cited by the claim — holds NaN at cell (1,1): the query
point (1,1) lies outside the convex hull of the samples and `3d.py` applies no
nearest-neighbour fallback.  So not every cell of the returned grid is
defined. -/
theorem terrain_data_nan_cell :
    orient 0 0 1 0 0 1 ≠ 0 ∧
      cellAt2 (terrain_data (triOfThree ⟨0, 0, 10⟩ ⟨1, 0, 20⟩ ⟨0, 1, 30⟩) [0, 1] [0, 1])
        1 1 = some none := by
  constructor
  · norm_num [orient]
  · unfold terrain_data grid_elev_lin
    rw [gridEval_mesh]
    simp only [List.map_cons, List.map_nil, cellAt2]
    norm_num [linInterp, triOfThree, inTriangle, orient]

/-- C1 (amended): in the `x_2d.py` resample step — which combines the linear
estimate with the nearest-neighbour fallback via `np.where` — every cell of
the returned grid is defined for any non-empty sample list, and each cell
equals the linear estimate where that estimate is defined, otherwise the
nearest-neighbour fallback estimate.  (The linear-only grids of `3d.py` and
`x_3d.py` do not enjoy this: see the counterexample.) -/
theorem grid_elev_coverage
    (tri : ℚ → ℚ → Option (SamplePoint × SamplePoint × SamplePoint))
    (samples : List SamplePoint) (lonAxis latAxis : List ℚ) (i j : Nat) (lo la : ℚ)
    (hs : samples ≠ []) (hla : latAxis[i]? = some la) (hlo : lonAxis[j]? = some lo) :
    ∃ v : ℚ, cellAt2 (grid_elev tri samples lonAxis latAxis) i j = some (some v) ∧
      (linInterp tri lo la = some v ∨
        (linInterp tri lo la = none ∧
          (nearestSample samples lo la).map SamplePoint.value = some v)) := by
  have hcell : cellAt2 (grid_elev tri samples lonAxis latAxis) i j =
      some (gridElevCell tri samples lo la) := by
    rw [grid_elev_eq]
    unfold cellAt2
    rw [List.getElem?_map, hla]
    simp [List.getElem?_map, hlo]
  cases hlin : linInterp tri lo la with
  | some v =>
    refine ⟨v, ?_, Or.inl rfl⟩
    rw [hcell]
    unfold gridElevCell
    rw [hlin]
    rfl
  | none =>
    obtain ⟨t, ht, _, _⟩ := nearestSample_spec samples lo la hs
    refine ⟨t.value, ?_, Or.inr ⟨rfl, by rw [ht]; rfl⟩⟩
    rw [hcell]
    unfold gridElevCell
    rw [hlin, ht]
    rfl

/-- C1 witness: the amended coverage theorem applied to the concrete samples
(0,0,10), (1,0,20), (0,1,30) with axes [0,1] × [0,1], at cell (1,1). -/
theorem grid_elev_coverage_witness :
    ∃ v : ℚ, cellAt2 (grid_elev (triOfThree ⟨0, 0, 10⟩ ⟨1, 0, 20⟩ ⟨0, 1, 30⟩)
        [⟨0, 0, 10⟩, ⟨1, 0, 20⟩, ⟨0, 1, 30⟩] [0, 1] [0, 1]) 1 1 = some (some v) ∧
      (linInterp (triOfThree ⟨0, 0, 10⟩ ⟨1, 0, 20⟩ ⟨0, 1, 30⟩) 1 1 = some v ∨
        (linInterp (triOfThree ⟨0, 0, 10⟩ ⟨1, 0, 20⟩ ⟨0, 1, 30⟩) 1 1 = none ∧
          (nearestSample [⟨0, 0, 10⟩, ⟨1, 0, 20⟩, ⟨0, 1, 30⟩] 1 1).map SamplePoint.value =
            some v)) :=
  grid_elev_coverage _ _ _ _ 1 1 1 1 (by decide) (by decide) (by decide)

/-- C2: at every query point where the linear estimate is undefined (outside
the convex hull of the samples), the `x_2d.py` resample step returns the value
of a sample minimizing the Euclidean distance to the query point in (x, y). -/
theorem fallback_nearest_correct
    (tri : ℚ → ℚ → Option (SamplePoint × SamplePoint × SamplePoint))
    (samples : List SamplePoint) (qx qy : ℚ)
    (hs : samples ≠ []) (hout : linInterp tri qx qy = none) :
    ∃ t, t ∈ samples ∧ gridElevCell tri samples qx qy = some t.value ∧
      ∀ u ∈ samples, sqDist t.x t.y qx qy ≤ sqDist u.x u.y qx qy := by
  obtain ⟨t, ht, hmem, hmin⟩ := nearestSample_spec samples qx qy hs
  refine ⟨t, hmem, ?_, hmin⟩
  unfold gridElevCell
  rw [hout, ht]
  rfl

/-- C2 witness: the fallback theorem applied to the samples (0,0,10),
(1,0,20), (0,1,30) at the query point (1,1), which lies outside their convex
hull. -/
theorem fallback_nearest_correct_witness :
    ∃ t, t ∈ [(⟨0, 0, 10⟩ : SamplePoint), ⟨1, 0, 20⟩, ⟨0, 1, 30⟩] ∧
      gridElevCell (triOfThree ⟨0, 0, 10⟩ ⟨1, 0, 20⟩ ⟨0, 1, 30⟩)
        [⟨0, 0, 10⟩, ⟨1, 0, 20⟩, ⟨0, 1, 30⟩] 1 1 = some t.value ∧
      ∀ u ∈ [(⟨0, 0, 10⟩ : SamplePoint), ⟨1, 0, 20⟩, ⟨0, 1, 30⟩],
        sqDist t.x t.y 1 1 ≤ sqDist u.x u.y 1 1 :=
  fallback_nearest_correct _ _ 1 1 (by decide)
    (by norm_num [linInterp, triOfThree, inTriangle, orient])

/-- C4: at a query point that coincides exactly with a sample `s`, the
`x_2d.py` resample step returns `s.value`, and so does the linear estimate
alone whenever the triangulation covers that point.  Hypotheses: samples have
pairwise distinct (x, y) positions, and the triangulation is Delaunay-like at
`s`: any triangle it assigns to `s`'s position is non-degenerate and has `s`
as a vertex (in a Delaunay triangulation every sample is a triangulation
vertex). -/
theorem sample_point_exactness
    (tri : ℚ → ℚ → Option (SamplePoint × SamplePoint × SamplePoint))
    (samples : List SamplePoint) (s : SamplePoint)
    (hs : s ∈ samples)
    (hsep : ∀ u ∈ samples, ∀ v ∈ samples, u.x = v.x → u.y = v.y → u = v)
    (htri : ∀ a b c, tri s.x s.y = some (a, b, c) →
      (s = a ∨ s = b ∨ s = c) ∧ orient a.x a.y b.x b.y c.x c.y ≠ 0) :
    gridElevCell tri samples s.x s.y = some s.value ∧
      ∀ a b c, tri s.x s.y = some (a, b, c) → linInterp tri s.x s.y = some s.value := by
  cases h : tri s.x s.y with
  | some t =>
    obtain ⟨a, b, c⟩ := t
    obtain ⟨hv, hd⟩ := htri a b c h
    have hlin : linInterp tri s.x s.y = some (barycentricValue a b c s.x s.y) := by
      unfold linInterp
      rw [h]
      rfl
    have hbar : barycentricValue a b c s.x s.y = s.value := by
      rcases hv with h1 | h1 | h1
      · rw [h1]; exact bary_vertex_a a b c hd
      · rw [h1]; exact bary_vertex_b a b c hd
      · rw [h1]; exact bary_vertex_c a b c hd
    constructor
    · unfold gridElevCell
      rw [hlin, hbar]
      rfl
    · intro a' b' c' h'
      rw [hlin, hbar]
  | none =>
    have hlin : linInterp tri s.x s.y = none := by
      unfold linInterp
      rw [h]
      rfl
    have hne : samples ≠ [] := by
      intro hnil
      rw [hnil] at hs
      exact absurd hs (List.not_mem_nil s)
    obtain ⟨t, ht, hmem, hmin⟩ := nearestSample_spec samples s.x s.y hne
    have hzero : sqDist s.x s.y s.x s.y = 0 := by
      unfold sqDist
      ring
    have hle : sqDist t.x t.y s.x s.y ≤ 0 := hzero ▸ hmin s hs
    have hx2 := sq_nonneg (t.x - s.x)
    have hy2 := sq_nonneg (t.y - s.y)
    have hdx : (t.x - s.x) ^ 2 = 0 := by
      unfold sqDist at hle
      linarith
    have hdy : (t.y - s.y) ^ 2 = 0 := by
      unfold sqDist at hle
      linarith
    have hxx : t.x = s.x := by
      have := pow_eq_zero_iff (n := 2) (by norm_num) |>.mp hdx
      linarith [sub_eq_zero.mp this]
    have hyy : t.y = s.y := by
      have := pow_eq_zero_iff (n := 2) (by norm_num) |>.mp hdy
      linarith [sub_eq_zero.mp this]
    have hts : t = s := hsep t hmem s hs hxx hyy
    constructor
    · unfold gridElevCell
      rw [hlin, ht, hts]
      rfl
    · intro a b c h'
      exact Option.noConfusion h'

/-- C4 witness: the exactness theorem applied to the samples (0,0,10),
(1,0,20), (0,1,30), whose triangle covers its own vertices, at the sample
(0,0,10). -/
theorem sample_point_exactness_witness :
    gridElevCell (triOfThree ⟨0, 0, 10⟩ ⟨1, 0, 20⟩ ⟨0, 1, 30⟩)
      [⟨0, 0, 10⟩, ⟨1, 0, 20⟩, ⟨0, 1, 30⟩] 0 0 = some 10 := by
  have he : triOfThree (⟨0, 0, 10⟩ : SamplePoint) ⟨1, 0, 20⟩ ⟨0, 1, 30⟩ 0 0 =
      some (⟨0, 0, 10⟩, ⟨1, 0, 20⟩, ⟨0, 1, 30⟩) := by
    norm_num [triOfThree, inTriangle, orient]
  have h := sample_point_exactness (triOfThree ⟨0, 0, 10⟩ ⟨1, 0, 20⟩ ⟨0, 1, 30⟩)
    [⟨0, 0, 10⟩, ⟨1, 0, 20⟩, ⟨0, 1, 30⟩] ⟨0, 0, 10⟩ (by decide) (by decide) ?htri
  · exact h.1
  case htri =>
    intro a b c hq
    have h2 := Option.some.inj (he.symm.trans hq)
    injection h2 with ha hrest
    injection hrest with hb hc
    subst ha hb hc
    exact ⟨Or.inl rfl, by norm_num [orient]⟩

/-- Modelled from the spec: the failure conditions of `resample`
(`InsufficientSamples`, `AxisEmpty`).  The scripts have no error type of their
own; they call the third-party `griddata` directly, whose triangulation
raises an error on degenerate input that propagates to the caller. -/
inductive ResampleError where
  | insufficientSamples
  | axisEmpty
deriving DecidableEq

/-- Whether some triple of samples is non-collinear (spans a triangle of
non-zero area) — exactly the condition under which a planar triangulation of
the samples exists. -/
def hasNonCollinearTriple (samples : List SamplePoint) : Bool :=
  samples.any (fun a => samples.any (fun b => samples.any (fun c =>
    decide (orient a.x a.y b.x b.y c.x c.y ≠ 0))))

/-- Modelled from the spec: `resample` with its failure semantics.  Fewer than
3 non-collinear usable samples make the triangulation (and hence the linear
pass) undefined, so the call fails with `InsufficientSamples` instead of
returning a grid; an empty axis fails with `AxisEmpty`; otherwise the
combined `x_2d.py` grid is returned. -/
def resampleChecked
    (tri : ℚ → ℚ → Option (SamplePoint × SamplePoint × SamplePoint))
    (samples : List SamplePoint) (lonAxis latAxis : List ℚ) :
    Except ResampleError Grid :=
  if hasNonCollinearTriple samples then
    if lonAxis.isEmpty || latAxis.isEmpty then .error .axisEmpty
    else .ok (grid_elev tri samples lonAxis latAxis)
  else .error .insufficientSamples

theorem orient_two_eq_zero (a b c : SamplePoint)
    (h : a = b ∨ a = c ∨ b = c) : orient a.x a.y b.x b.y c.x c.y = 0 := by
  rcases h with rfl | rfl | rfl
  · exact orient_degen_ab a.x a.y c.x c.y
  · exact orient_degen_ac a.x a.y b.x b.y
  · exact orient_degen_bc a.x a.y b.x b.y

theorem hasNonCollinearTriple_false (samples : List SamplePoint)
    (h : ∀ a ∈ samples, ∀ b ∈ samples, ∀ c ∈ samples,
      orient a.x a.y b.x b.y c.x c.y = 0) :
    hasNonCollinearTriple samples = false := by
  unfold hasNonCollinearTriple
  rw [Bool.eq_false_iff]
  intro hany
  rw [List.any_eq_true] at hany
  obtain ⟨a, ha, hany⟩ := hany
  rw [List.any_eq_true] at hany
  obtain ⟨b, hb, hany⟩ := hany
  rw [List.any_eq_true] at hany
  obtain ⟨c, hc, hany⟩ := hany
  exact (of_decide_eq_true hany) (h a ha b hb c hc)

theorem short_list_collinear (samples : List SamplePoint)
    (hlen : samples.length < 3) :
    ∀ a ∈ samples, ∀ b ∈ samples, ∀ c ∈ samples,
      orient a.x a.y b.x b.y c.x c.y = 0 := by
  intro a ha b hb c hc
  match samples, hlen with
  | [], _ => exact absurd ha (List.not_mem_nil a)
  | [x], _ =>
    rw [List.mem_singleton] at ha hb
    exact orient_two_eq_zero a b c (Or.inl (ha.trans hb.symm))
  | [x, y], _ =>
    rw [List.mem_cons, List.mem_singleton] at ha hb hc
    rcases ha with rfl | rfl <;> rcases hb with rfl | rfl <;> rcases hc with rfl | rfl <;>
      first
      | exact orient_two_eq_zero _ _ _ (Or.inl rfl)
      | exact orient_two_eq_zero _ _ _ (Or.inr (Or.inl rfl))
      | exact orient_two_eq_zero _ _ _ (Or.inr (Or.inr rfl))

/-- C3: calling `resample` with fewer than 3 samples, or with samples that
are all collinear, fails with `InsufficientSamples`, never returning a grid. -/
theorem resample_insufficient_samples
    (tri : ℚ → ℚ → Option (SamplePoint × SamplePoint × SamplePoint))
    (samples : List SamplePoint) (lonAxis latAxis : List ℚ)
    (h : samples.length < 3 ∨ ∀ a ∈ samples, ∀ b ∈ samples, ∀ c ∈ samples,
      orient a.x a.y b.x b.y c.x c.y = 0) :
    resampleChecked tri samples lonAxis latAxis =
      Except.error ResampleError.insufficientSamples := by
  have hfalse : hasNonCollinearTriple samples = false := by
    rcases h with h | h
    · exact hasNonCollinearTriple_false samples (short_list_collinear samples h)
    · exact hasNonCollinearTriple_false samples h
  unfold resampleChecked
  rw [hfalse]
  rfl

/-- C3 witness: a 2-sample call and a 5-sample collinear call, both rejected
with `InsufficientSamples`. -/
theorem resample_insufficient_samples_witness :
    resampleChecked (triOfThree ⟨0, 0, 1⟩ ⟨1, 0, 2⟩ ⟨0, 1, 3⟩)
        [⟨0, 0, 1⟩, ⟨1, 1, 2⟩] [0, 1] [0, 1] =
      Except.error ResampleError.insufficientSamples ∧
    resampleChecked (triOfThree ⟨0, 0, 1⟩ ⟨1, 0, 2⟩ ⟨0, 1, 3⟩)
        [⟨0, 0, 1⟩, ⟨1, 1, 2⟩, ⟨2, 2, 3⟩, ⟨3, 3, 4⟩, ⟨4, 4, 5⟩] [0, 1] [0, 1] =
      Except.error ResampleError.insufficientSamples := by
  constructor
  · exact resample_insufficient_samples _ _ _ _ (Or.inl (by decide))
  · refine resample_insufficient_samples _ _ _ _ (Or.inr ?_)
    intro a ha b hb c hc
    fin_cases ha <;> fin_cases hb <;> fin_cases hc <;> norm_num [orient]

/-- C5: the grid returned by the resample step has `latAxis.length` rows, each
of `lonAxis.length` cells, and cell (i, j) holds the resampled value at the
query point `(lonAxis[j], latAxis[i])` — rows follow the latitude axis,
columns the longitude axis. -/
theorem grid_shape_indexing
    (tri : ℚ → ℚ → Option (SamplePoint × SamplePoint × SamplePoint))
    (samples : List SamplePoint) (lonAxis latAxis : List ℚ) (i j : Nat) (lo la : ℚ)
    (hla : latAxis[i]? = some la) (hlo : lonAxis[j]? = some lo) :
    (grid_elev tri samples lonAxis latAxis).length = latAxis.length ∧
      (∀ row ∈ grid_elev tri samples lonAxis latAxis, row.length = lonAxis.length) ∧
      cellAt2 (grid_elev tri samples lonAxis latAxis) i j =
        some (gridElevCell tri samples lo la) := by
  rw [grid_elev_eq]
  refine ⟨List.length_map _ _, ?_, ?_⟩
  · intro row hrow
    rw [List.mem_map] at hrow
    obtain ⟨la', _, hrow⟩ := hrow
    rw [← hrow]
    exact List.length_map _ _
  · unfold cellAt2
    rw [List.getElem?_map, hla]
    simp [List.getElem?_map, hlo]

/-- C5 witness: the shape/indexing theorem on concrete axes [0, 1] × [0, 1]
at cell (1, 0). -/
theorem grid_shape_indexing_witness :
    (grid_elev (triOfThree ⟨0, 0, 10⟩ ⟨1, 0, 20⟩ ⟨0, 1, 30⟩)
        [⟨0, 0, 10⟩, ⟨1, 0, 20⟩, ⟨0, 1, 30⟩] [0, 1] [0, 1]).length = 2 ∧
      (∀ row ∈ grid_elev (triOfThree ⟨0, 0, 10⟩ ⟨1, 0, 20⟩ ⟨0, 1, 30⟩)
          [⟨0, 0, 10⟩, ⟨1, 0, 20⟩, ⟨0, 1, 30⟩] [0, 1] [0, 1], row.length = 2) ∧
      cellAt2 (grid_elev (triOfThree ⟨0, 0, 10⟩ ⟨1, 0, 20⟩ ⟨0, 1, 30⟩)
          [⟨0, 0, 10⟩, ⟨1, 0, 20⟩, ⟨0, 1, 30⟩] [0, 1] [0, 1]) 1 0 =
        some (gridElevCell (triOfThree ⟨0, 0, 10⟩ ⟨1, 0, 20⟩ ⟨0, 1, 30⟩)
          [⟨0, 0, 10⟩, ⟨1, 0, 20⟩, ⟨0, 1, 30⟩] 0 1) :=
  grid_shape_indexing _ _ [0, 1] [0, 1] 1 0 0 1 (by decide) (by decide)

/-- C9: `resample` is a pure function of its inputs — two calls with the same
triangulation, samples and axes produce identical output grids; the embedding
has no other state the result could depend on. -/
theorem resample_deterministic
    (tri tri2 : ℚ → ℚ → Option (SamplePoint × SamplePoint × SamplePoint))
    (samples samples2 : List SamplePoint) (lonAxis lonAxis2 latAxis latAxis2 : List ℚ)
    (ht : tri = tri2) (hs : samples = samples2) (hlon : lonAxis = lonAxis2)
    (hlat : latAxis = latAxis2) :
    grid_elev tri samples lonAxis latAxis = grid_elev tri2 samples2 lonAxis2 latAxis2 := by
  rw [ht, hs, hlon, hlat]

/-- C9 witness: determinism instantiated at a concrete call. -/
theorem resample_deterministic_witness :
    grid_elev (triOfThree ⟨0, 0, 10⟩ ⟨1, 0, 20⟩ ⟨0, 1, 30⟩)
        [⟨0, 0, 10⟩, ⟨1, 0, 20⟩, ⟨0, 1, 30⟩] [0, 1] [0, 1] =
      grid_elev (triOfThree ⟨0, 0, 10⟩ ⟨1, 0, 20⟩ ⟨0, 1, 30⟩)
        [⟨0, 0, 10⟩, ⟨1, 0, 20⟩, ⟨0, 1, 30⟩] [0, 1] [0, 1] :=
  resample_deterministic _ _ _ _ _ _ _ _ rfl rfl rfl rfl

/-- The element of `xs` at the index `np.argmin(|xs - t|)` picks: the first
element minimising the absolute difference to the target `t` (`np.argmin`
returns the first occurrence of the minimum; the strict `<` in the fold keeps
the earlier element on ties). -/
def argminAbs (t : ℚ) (xs : List ℚ) : Option ℚ :=
  match xs with
  | [] => none
  | v :: rest => some (minBy (fun w => |w - t|) v rest)

/-- Function `find_nearest_grid_point` of `temp.py` (lines 16-21), `climate.py`
(lines 16-19) and `rh.py` (lines 14-17): the dataset's latitude value at
`argmin(|lat - target_lat|)` paired with its longitude value at
`argmin(|lon - target_lon|)`. -/
def find_nearest_grid_point (lats lons : List ℚ) (target_lat target_lon : ℚ) :
    Option (ℚ × ℚ) :=
  match argminAbs target_lat lats, argminAbs target_lon lons with
  | some la, some lo => some (la, lo)
  | _, _ => none

theorem argminAbs_spec (t : ℚ) (xs : List ℚ) (hxs : xs ≠ []) :
    ∃ v, argminAbs t xs = some v ∧ v ∈ xs ∧ ∀ w ∈ xs, |v - t| ≤ |w - t| := by
  match xs with
  | [] => exact absurd rfl hxs
  | v :: rest =>
    exact ⟨minBy (fun w => |w - t|) v rest, rfl, minBy_mem _ v rest, minBy_le _ v rest⟩

/-- C10: for non-empty coordinate arrays, `find_nearest_grid_point` returns a
pair whose first component is an element of the latitude array minimising the
absolute difference to the target latitude over that array, and whose second
component likewise minimises over the longitude array. -/
theorem find_nearest_grid_point_minimizes (lats lons : List ℚ)
    (target_lat target_lon : ℚ) (hlat : lats ≠ []) (hlon : lons ≠ []) :
    ∃ la lo, find_nearest_grid_point lats lons target_lat target_lon = some (la, lo) ∧
      la ∈ lats ∧ lo ∈ lons ∧
      (∀ w ∈ lats, |la - target_lat| ≤ |w - target_lat|) ∧
      (∀ w ∈ lons, |lo - target_lon| ≤ |w - target_lon|) := by
  obtain ⟨la, hla, hmla, hminla⟩ := argminAbs_spec target_lat lats hlat
  obtain ⟨lo, hlo, hmlo, hminlo⟩ := argminAbs_spec target_lon lons hlon
  refine ⟨la, lo, ?_, hmla, hmlo, hminla, hminlo⟩
  unfold find_nearest_grid_point
  rw [hla, hlo]

/-- C10 witness: the lookup theorem on the concrete arrays [10, 20] and
[1, 2, 3] with target (19, 1). -/
theorem find_nearest_grid_point_minimizes_witness :
    ∃ la lo, find_nearest_grid_point [10, 20] [1, 2, 3] 19 1 = some (la, lo) ∧
      la ∈ [(10 : ℚ), 20] ∧ lo ∈ [(1 : ℚ), 2, 3] ∧
      (∀ w ∈ [(10 : ℚ), 20], |la - 19| ≤ |w - 19|) ∧
      (∀ w ∈ [(1 : ℚ), 2, 3], |lo - 1| ≤ |w - 1|) :=
  find_nearest_grid_point_minimizes [10, 20] [1, 2, 3] 19 1 (by decide) (by decide)

/-- The three columns of a raw DEM row that the interpolation consumes
(`3d.py` loads thirteen columns; `latitude`, `longitude` and `ground` are the
ones dropna is keyed on and the only ones fed onward). -/
structure RawRow where
  latitude : ℚ
  longitude : ℚ
  ground : ℚ
deriving DecidableEq

/-- The null-value sentinels replaced by NaN in `3d.py` line 13:
[-9999999, -99999999, -999999, -9.999999e+32, -9.9999999999e+32]. -/
def nullSentinels : List ℚ :=
  [-9999999, -99999999, -999999, -(9999999 * 10 ^ 26), -(99999999999 * 10 ^ 22)]

/-- Cleaning step `df.replace(nullSentinels, np.nan)` followed by
`df.dropna(subset=['latitude', 'longitude', 'ground'])` (`3d.py` lines
13-14): a row survives exactly when none of the three used columns held a
sentinel (a sentinel elsewhere in the row becomes NaN but is not in the
dropna subset, and the three fields cannot otherwise be missing in the
fixed-width source file). -/
def cleanRows (rows : List RawRow) : List RawRow :=
  rows.filter (fun r =>
    decide (r.latitude ∉ nullSentinels) && decide (r.longitude ∉ nullSentinels) &&
      decide (r.ground ∉ nullSentinels))

/-- The samples fed to `griddata`: `points = df[['longitude', 'latitude']]`,
`values = df['ground']` (`3d.py` lines 22-23). -/
def demSamples (rows : List RawRow) : List SamplePoint :=
  (cleanRows rows).map (fun r => ⟨r.longitude, r.latitude, r.ground⟩)

/-- Modelled from the spec: the third-party 1-D linear interpolation the
rainfall script applies along a coordinate axis
(`rain.interp(lon=..., method="linear")`, `rain.py` line 40): a query between
two consecutive axis points gets the linear blend of their values; a query
outside the axis range gets nothing. -/
def interp1D (xs vs : List ℚ) (t : ℚ) : Option ℚ :=
  match xs, vs with
  | [x0], [v0] => if t = x0 then some v0 else none
  | x0 :: x1 :: xrest, v0 :: v1 :: vrest =>
    if t < x0 then none
    else if t ≤ x1 then
      if x1 = x0 then some v0 else some (v0 + (t - x0) / (x1 - x0) * (v1 - v0))
    else interp1D (x1 :: xrest) (v1 :: vrest) t
  | _, _ => none

/-- One cell of the rainfall pipeline (`rain.py` lines 40-46): the raw grid
values — sentinels included — are linearly interpolated first, and only then
is the sentinel mask `rain_day[rain_day <= -32765] = np.nan` applied to the
interpolated result. -/
def rain_day_cell (xs vs : List ℚ) (t : ℚ) : Option ℚ :=
  match interp1D xs vs t with
  | none => none
  | some v => if v ≤ -32765 then none else some v

/-- Following the spec's loader contract, for comparison with the code: the
sentinel mask is applied to the raw values *before* interpolation, and a cell
whose interpolation window touches a masked (missing) value is itself
missing. -/
def rain_day_cell_spec (xs : List ℚ) (vs : List ℚ) (t : ℚ) : Option ℚ :=
  match xs, vs with
  | [x0], [v0] => if t = x0 ∧ ¬(v0 ≤ -32765) then some v0 else none
  | x0 :: x1 :: xrest, v0 :: v1 :: vrest =>
    if t < x0 then none
    else if t ≤ x1 then
      if v0 ≤ -32765 ∨ v1 ≤ -32765 then none
      else if x1 = x0 then some v0 else some (v0 + (t - x0) / (x1 - x0) * (v1 - v0))
    else rain_day_cell_spec (x1 :: xrest) (v1 :: vrest) t
  | _, _ => none

/-- C8 counterexample: on the axis [0, 1] with raw values [10, -32765] (the
second being a sentinel, as `-32765 ≤ -32765`), the rainfall pipeline
interpolates the sentinel's full magnitude into the midpoint cell and the
after-the-fact mask does not catch the contaminated value (-16377.5 is above
the threshold), so the cell is returned defined; filtering the sentinel
before interpolation, as the claim requires, would leave the cell missing. -/
theorem rain_sentinel_participates :
    rain_day_cell [0, 1] [10, -32765] (1 / 2) = some (-32755 / 2) ∧
      rain_day_cell_spec [0, 1] [10, -32765] (1 / 2) = none ∧
      rain_day_cell [0, 1] [10, -32765] (1 / 2) ≠
        rain_day_cell_spec [0, 1] [10, -32765] (1 / 2) := by
  have h1 : rain_day_cell [0, 1] [10, -32765] (1 / 2) = some (-32755 / 2) := by
    norm_num [rain_day_cell, interp1D]
  have h2 : rain_day_cell_spec [0, 1] [10, -32765] (1 / 2) = none := by
    norm_num [rain_day_cell_spec]
  exact ⟨h1, h2, by rw [h1, h2]; exact Option.some_ne_none _⟩

/-- C8 (amended): in the DEM pipelines the sentinel replacement and the
dropna filter run *before* interpolation, so every sample fed to `griddata`
has sentinel-free coordinates and a sentinel-free value; the rainfall script,
by contrast, applies its sentinel mask only after interpolation, so rainfall
sentinels do participate in the interpolation (see the counterexample). -/
theorem dem_samples_sentinel_free (rows : List RawRow) :
    ∀ s ∈ demSamples rows, s.x ∉ nullSentinels ∧ s.y ∉ nullSentinels ∧
      s.value ∉ nullSentinels := by
  intro s hs
  unfold demSamples at hs
  rw [List.mem_map] at hs
  obtain ⟨r, hr, rfl⟩ := hs
  unfold cleanRows at hr
  rw [List.mem_filter] at hr
  obtain ⟨-, hcond⟩ := hr
  rw [Bool.and_eq_true, Bool.and_eq_true] at hcond
  exact ⟨of_decide_eq_true hcond.1.2, of_decide_eq_true hcond.1.1,
    of_decide_eq_true hcond.2⟩

/-- C8 witness: the loader theorem on a concrete raw table holding one clean
row and two rows carrying sentinels (in a coordinate and in the value). -/
theorem dem_samples_sentinel_free_witness :
    (∀ s ∈ demSamples [⟨-27, 153, 40⟩, ⟨-9999999, 153, 40⟩, ⟨-27, 153, -999999⟩],
        s.x ∉ nullSentinels ∧ s.y ∉ nullSentinels ∧ s.value ∉ nullSentinels) ∧
      demSamples [⟨-27, 153, 40⟩, ⟨-9999999, 153, 40⟩, ⟨-27, 153, -999999⟩] =
        [⟨153, -27, 40⟩] :=
  ⟨dem_samples_sentinel_free _,
    by norm_num [demSamples, cleanRows, nullSentinels, List.filter]⟩

/-- Cellwise mean of the defined entries, `none` when all are missing: the
behaviour of `np.nanmean` / `mean(skipna=True)` at one cell. -/
def nanmeanList (vs : List ℚ) : Option ℚ :=
  if vs.isEmpty then none else some (vs.sum / (vs.length : ℚ))

/-- Cell (i, j) of a grid, `none` when missing or out of range. -/
def cellJoin (g : Grid) (i j : Nat) : Option ℚ :=
  (g[i]?.bind (fun row => row[j]?)).join

/-- Model of `np.nanmean(np.stack(gs), axis=0)` (`heatmap.py` line 53) and
`mean(dim='time', skipna=True)` (`heatmap.py` line 43): the cellwise mean of
a stack of same-shaped grids, ignoring missing cells. -/
def nanmeanStack (gs : List Grid) : Grid :=
  match gs with
  | [] => []
  | g :: _ =>
    (List.range g.length).map (fun i =>
      (List.range (g.getD i []).length).map (fun j =>
        nanmeanList (gs.filterMap (fun h => cellJoin h i j))))

/-- Index set `np.where(times.month == month)[0]` (`heatmap.py` line 40): the indices of
the time steps falling in month `m`. -/
def monthIndices (months : List Nat) (m : Nat) : List Nat :=
  (List.range months.length).filter (fun i => months.getD i 0 = m)

/-- One year's contribution to one month (`heatmap.py` lines 40-44): if the
year has no time steps in month `m` the month is skipped (`continue`),
otherwise the mean over the month's time steps is collected. -/
def collectYear (months : List Nat) (frames : List Grid) (m : Nat) : Option Grid :=
  if (monthIndices months m).isEmpty then none
  else some (nanmeanStack ((monthIndices months m).filterMap (fun i => frames[i]?)))

/-- Accumulator `radiation_surfaces_by_month` (`heatmap.py` lines 23, 39-44): for each of
the 12 months, the list of per-year monthly grids collected across the
years; a year contributes nothing to a month it has no time steps in. -/
def radiation_surfaces_by_month (years : List (List Nat × List Grid)) :
    List (List Grid) :=
  (List.range 12).map (fun mi => years.filterMap (fun y => collectYear y.1 y.2 (mi + 1)))

/-- The month labels (`heatmap.py` line 55). -/
def monthNames : List String :=
  ["January", "February", "March", "April", "May", "June",
    "July", "August", "September", "October", "November", "December"]

/-- Batch `radiation_surfaces` with its parallel `month_labels` (`heatmap.py` lines
47-55): months whose collected list is empty are skipped (`continue`), every
other month contributes its stacked nanmean paired with its label. -/
def radiation_surfaces (years : List (List Nat × List Grid)) : List (String × Grid) :=
  (List.range 12).filterMap (fun mi =>
    let gs := years.filterMap (fun y => collectYear y.1 y.2 (mi + 1))
    if gs.isEmpty then none else some (monthNames.getD mi "", nanmeanStack gs))

theorem monthNames_inj :
    ∀ k1 < 12, ∀ k2 < 12, monthNames.getD k1 "" = monthNames.getD k2 "" → k1 = k2 := by
  decide

theorem radiation_surfaces_by_month_getD (years : List (List Nat × List Grid))
    (mi : Nat) (hmi : mi < 12) :
    (radiation_surfaces_by_month years).getD mi [] =
      years.filterMap (fun y => collectYear y.1 y.2 (mi + 1)) := by
  unfold radiation_surfaces_by_month
  rw [List.getD_eq_getElem?_getD, List.getElem?_map, List.getElem?_range hmi]
  rfl

/-- C6: in the batch resampling of `heatmap.py`, a month with an empty
collected slice is omitted from the result (no entry carries its label)
rather than producing an all-missing grid; a month with a non-empty slice is
still included, with the grid computed from that slice alone; and within a
year, a month with zero time steps contributes nothing — so one slice's
absence never aborts the rest of the batch. -/
theorem batch_omits_empty_slices (years : List (List Nat × List Grid)) (mi : Nat)
    (hmi : mi < 12) :
    ((radiation_surfaces_by_month years).getD mi [] = [] →
      ∀ g : Grid, (monthNames.getD mi "", g) ∉ radiation_surfaces years) ∧
      ((radiation_surfaces_by_month years).getD mi [] ≠ [] →
        (monthNames.getD mi "",
          nanmeanStack ((radiation_surfaces_by_month years).getD mi [])) ∈
            radiation_surfaces years) ∧
      (∀ months : List Nat, ∀ frames : List Grid, monthIndices months (mi + 1) = [] →
        collectYear months frames (mi + 1) = none) := by
  rw [radiation_surfaces_by_month_getD years mi hmi]
  refine ⟨?_, ?_, ?_⟩
  · intro hempty g hg
    unfold radiation_surfaces at hg
    rw [List.mem_filterMap] at hg
    obtain ⟨k, hk, hF⟩ := hg
    rw [List.mem_range] at hk
    by_cases hkempty : (years.filterMap (fun y => collectYear y.1 y.2 (k + 1))).isEmpty
    · simp only [hkempty, if_true] at hF
      exact Option.noConfusion hF
    · simp only [hkempty, if_false] at hF
      have hlabel : monthNames.getD k "" = monthNames.getD mi "" :=
        congrArg Prod.fst (Option.some.inj hF)
      have hkm : k = mi := monthNames_inj k hk mi hmi hlabel
      rw [hkm, hempty] at hkempty
      exact hkempty rfl
  · intro hne
    unfold radiation_surfaces
    rw [List.mem_filterMap]
    refine ⟨mi, List.mem_range.mpr hmi, ?_⟩
    simp only [List.isEmpty_iff, hne, if_false]
  · intro months frames hidx
    unfold collectYear
    rw [hidx]
    rfl

/-- C6 witness: a batch of one year whose time steps all fall in January:
February (an empty slice) is omitted, January is included with its own
stacked mean, and a month with no time indices contributes nothing. -/
theorem batch_omits_empty_slices_witness :
    ((radiation_surfaces_by_month [([1, 1], [[[some 4]], [[some 6]]])]).getD 1 [] = [] →
      ∀ g : Grid, (monthNames.getD 1 "", g) ∉
        radiation_surfaces [([1, 1], [[[some 4]], [[some 6]]])]) ∧
      ((radiation_surfaces_by_month [([1, 1], [[[some 4]], [[some 6]]])]).getD 1 [] ≠ [] →
        (monthNames.getD 1 "",
          nanmeanStack ((radiation_surfaces_by_month
            [([1, 1], [[[some 4]], [[some 6]]])]).getD 1 [])) ∈
              radiation_surfaces [([1, 1], [[[some 4]], [[some 6]]])]) ∧
      (∀ months : List Nat, ∀ frames : List Grid, monthIndices months 2 = [] →
        collectYear months frames 2 = none) :=
  batch_omits_empty_slices [([1, 1], [[[some 4]], [[some 6]]])] 1 (by decide)

/-- Generic fold keeping the element with the strictly largest key; the
earlier element wins ties. -/
def maxBy (key : α → ℚ) (a : α) (l : List α) : α :=
  l.foldl (fun b s => if key b < key s then s else b) a

theorem maxBy_mem (key : α → ℚ) (a : α) (l : List α) :
    maxBy key a l ∈ a :: l := by
  induction l generalizing a with
  | nil => simp [maxBy]
  | cons v rest ih =>
    have hfold : maxBy key a (v :: rest) =
        maxBy key (if key a < key v then v else a) rest := by
      simp [maxBy]
    rw [hfold]
    rcases List.mem_cons.mp (ih (if key a < key v then v else a)) with h | h
    · rw [h]; split <;> simp
    · simp [h]

theorem maxBy_le (key : α → ℚ) (a : α) (l : List α) :
    ∀ u ∈ a :: l, key u ≤ key (maxBy key a l) := by
  induction l generalizing a with
  | nil => intro u hu; simp at hu; simp [maxBy, hu]
  | cons v rest ih =>
    intro u hu
    have hfold : maxBy key a (v :: rest) =
        maxBy key (if key a < key v then v else a) rest := by
      simp [maxBy]
    have step : key a ≤ key (if key a < key v then v else a) ∧
        key v ≤ key (if key a < key v then v else a) := by
      split
      · exact ⟨le_of_lt (by assumption), le_refl _⟩
      · exact ⟨le_refl _, le_of_not_lt (by assumption)⟩
    have hhead := ih (if key a < key v then v else a)
        (if key a < key v then v else a) (List.mem_cons_self _ _)
    rcases List.mem_cons.mp hu with rfl | hu
    · rw [hfold]; exact le_trans step.1 hhead
    · rcases List.mem_cons.mp hu with rfl | hu
      · rw [hfold]; exact le_trans step.2 hhead
      · rw [hfold]
        exact ih (if key a < key v then v else a) u (List.mem_cons_of_mem _ hu)

/-- The minimum value of a list, `none` on the empty list (`np.min` fails
there). -/
def listMin (l : List ℚ) : Option ℚ :=
  match l with
  | [] => none
  | v :: rest => some (minBy id v rest)

/-- The maximum value of a list, `none` on the empty list. -/
def listMax (l : List ℚ) : Option ℚ :=
  match l with
  | [] => none
  | v :: rest => some (maxBy id v rest)

theorem listMin_spec (l : List ℚ) (hl : l ≠ []) :
    ∃ m, listMin l = some m ∧ m ∈ l ∧ ∀ v ∈ l, m ≤ v := by
  match l with
  | [] => exact absurd rfl hl
  | v :: rest => exact ⟨minBy id v rest, rfl, minBy_mem id v rest, minBy_le id v rest⟩

theorem listMax_spec (l : List ℚ) (hl : l ≠ []) :
    ∃ m, listMax l = some m ∧ m ∈ l ∧ ∀ v ∈ l, v ≤ m := by
  match l with
  | [] => exact absurd rfl hl
  | v :: rest => exact ⟨maxBy id v rest, rfl, maxBy_mem id v rest, maxBy_le id v rest⟩

/-- The defined (non-NaN) cell values of a grid. -/
def definedCells (g : Grid) : List ℚ := g.flatten.filterMap id

/-- The defined cell values of every grid of a batch. -/
def allDefinedCells (gs : List Grid) : List ℚ := (gs.map definedCells).flatten

/-- Model of `np.nanmin(surface)`: the minimum over the defined cells; an all-missing
grid yields NaN (`none`). -/
def nanmin (g : Grid) : Option ℚ := listMin (definedCells g)

/-- Model of `np.nanmax(surface)`: the maximum over the defined cells. -/
def nanmax (g : Grid) : Option ℚ := listMax (definedCells g)

/-- Bound `fixed_zmin` (`heatmap.py` line 58):
`np.min([np.nanmin(surface) for surface in radiation_surfaces])`; NaN
(`none`) when some surface is all-missing, an error (`none`) on an empty
batch. -/
def fixed_zmin (gs : List Grid) : Option ℚ :=
  if (gs.map nanmin).any (fun m => m.isNone) then none
  else listMin ((gs.map nanmin).filterMap id)

/-- Bound `fixed_zmax` (`heatmap.py` line 59):
`np.max([np.nanmax(surface) for surface in radiation_surfaces])`. -/
def fixed_zmax (gs : List Grid) : Option ℚ :=
  if (gs.map nanmax).any (fun m => m.isNone) then none
  else listMax ((gs.map nanmax).filterMap id)

theorem mem_allDefinedCells (gs : List Grid) (v : ℚ) :
    v ∈ allDefinedCells gs ↔ ∃ g ∈ gs, v ∈ definedCells g := by
  unfold allDefinedCells
  rw [List.mem_flatten]
  constructor
  · rintro ⟨l, hl, hv⟩
    obtain ⟨g, hg, rfl⟩ := List.mem_map.mp hl
    exact ⟨g, hg, hv⟩
  · rintro ⟨g, hg, hv⟩
    exact ⟨definedCells g, List.mem_map.mpr ⟨g, hg, rfl⟩, hv⟩

/-- C7 (amended): for the heatmap batch — every included grid having at least
one defined cell — the exposed colour range (`fixed_zmin`, `fixed_zmax`)
equals the global minimum and the global maximum over the defined cells of
all included grids, missing cells ignored.  (The rainfall batch instead
exposes 0 and a 99.5th percentile of NaN-zeroed values: see the
counterexample.) -/
theorem heatmap_range_global_minmax (gs : List Grid) (hne : gs ≠ [])
    (hdef : ∀ g ∈ gs, definedCells g ≠ []) :
    fixed_zmin gs = listMin (allDefinedCells gs) ∧
      fixed_zmax gs = listMax (allDefinedCells gs) := by
  have hnonone : ∀ m ∈ gs.map nanmin, m.isNone = false := by
    intro m hm
    obtain ⟨g, hg, rfl⟩ := List.mem_map.mp hm
    obtain ⟨mg, hmg, -, -⟩ := listMin_spec (definedCells g) (hdef g hg)
    rw [nanmin, hmg]
    rfl
  have hnonone2 : ∀ m ∈ gs.map nanmax, m.isNone = false := by
    intro m hm
    obtain ⟨g, hg, rfl⟩ := List.mem_map.mp hm
    obtain ⟨mg, hmg, -, -⟩ := listMax_spec (definedCells g) (hdef g hg)
    rw [nanmax, hmg]
    rfl
  have hA : allDefinedCells gs ≠ [] := by
    match gs, hne with
    | g :: rest, _ =>
      intro hnil
      have : definedCells g ≠ [] := hdef g (List.mem_cons_self _ _)
      match hd : definedCells g, this with
      | v :: vs, _ =>
        have : v ∈ allDefinedCells (g :: rest) := by
          rw [mem_allDefinedCells]
          exact ⟨g, List.mem_cons_self _ _, by rw [hd]; exact List.mem_cons_self _ _⟩
        rw [hnil] at this
        exact absurd this (List.not_mem_nil v)
  constructor
  · obtain ⟨mA, hmA, hmemA, hminA⟩ := listMin_spec (allDefinedCells gs) hA
    have hBne : (gs.map nanmin).filterMap id ≠ [] := by
      match gs, hne with
      | g :: rest, _ =>
        obtain ⟨mg, hmg, -, -⟩ := listMin_spec (definedCells g)
          (hdef g (List.mem_cons_self _ _))
        intro hnil
        have : mg ∈ (List.map nanmin (g :: rest)).filterMap id :=
          List.mem_filterMap.mpr ⟨some mg,
            List.mem_map.mpr ⟨g, List.mem_cons_self _ _, by rw [nanmin, hmg]⟩, rfl⟩
        rw [hnil] at this
        exact absurd this (List.not_mem_nil mg)
    obtain ⟨mB, hmB, hmemB, hminB⟩ := listMin_spec _ hBne
    have hABle : mA ≤ mB := by
      obtain ⟨om, hom, heq⟩ := List.mem_filterMap.mp hmemB
      obtain ⟨g, hg, hfg⟩ := List.mem_map.mp hom
      obtain ⟨mg, hmg, hmemg, -⟩ := listMin_spec (definedCells g) (hdef g hg)
      have : mg = mB := by
        rw [nanmin, hmg] at hfg
        rw [← hfg] at heq
        exact Option.some.inj heq
      exact hminA mB (mem_allDefinedCells gs mB |>.mpr ⟨g, hg, this ▸ hmemg⟩)
    have hBAle : mB ≤ mA := by
      obtain ⟨g, hg, hvg⟩ := (mem_allDefinedCells gs mA).mp hmemA
      obtain ⟨mg, hmg, -, hming⟩ := listMin_spec (definedCells g) (hdef g hg)
      have hmgB : mg ∈ (gs.map nanmin).filterMap id :=
        List.mem_filterMap.mpr ⟨some mg,
          List.mem_map.mpr ⟨g, hg, by rw [nanmin, hmg]⟩, rfl⟩
      exact le_trans (hminB mg hmgB) (hming mA hvg)
    have : mA = mB := le_antisymm hABle hBAle
    rw [fixed_zmin, if_neg, hmB, hmA, this]
    rw [List.any_eq_true]
    rintro ⟨m, hm, hnone⟩
    rw [hnonone m hm] at hnone
    exact Bool.noConfusion hnone
  · obtain ⟨mA, hmA, hmemA, hmaxA⟩ := listMax_spec (allDefinedCells gs) hA
    have hBne : (gs.map nanmax).filterMap id ≠ [] := by
      match gs, hne with
      | g :: rest, _ =>
        obtain ⟨mg, hmg, -, -⟩ := listMax_spec (definedCells g)
          (hdef g (List.mem_cons_self _ _))
        intro hnil
        have : mg ∈ (List.map nanmax (g :: rest)).filterMap id :=
          List.mem_filterMap.mpr ⟨some mg,
            List.mem_map.mpr ⟨g, List.mem_cons_self _ _, by rw [nanmax, hmg]⟩, rfl⟩
        rw [hnil] at this
        exact absurd this (List.not_mem_nil mg)
    obtain ⟨mB, hmB, hmemB, hmaxB⟩ := listMax_spec _ hBne
    have hABle : mB ≤ mA := by
      obtain ⟨om, hom, heq⟩ := List.mem_filterMap.mp hmemB
      obtain ⟨g, hg, hfg⟩ := List.mem_map.mp hom
      obtain ⟨mg, hmg, hmemg, -⟩ := listMax_spec (definedCells g) (hdef g hg)
      have : mg = mB := by
        rw [nanmax, hmg] at hfg
        rw [← hfg] at heq
        exact Option.some.inj heq
      exact hmaxA mB (mem_allDefinedCells gs mB |>.mpr ⟨g, hg, this ▸ hmemg⟩)
    have hBAle : mA ≤ mB := by
      obtain ⟨g, hg, hvg⟩ := (mem_allDefinedCells gs mA).mp hmemA
      obtain ⟨mg, hmg, -, hmaxg⟩ := listMax_spec (definedCells g) (hdef g hg)
      have hmgB : mg ∈ (gs.map nanmax).filterMap id :=
        List.mem_filterMap.mpr ⟨some mg,
          List.mem_map.mpr ⟨g, hg, by rw [nanmax, hmg]⟩, rfl⟩
      exact le_trans (hmaxg mA hvg) (hmaxB mg hmgB)
    have : mA = mB := le_antisymm hBAle hABle
    rw [fixed_zmax, if_neg, hmB, hmA, this]
    rw [List.any_eq_true]
    rintro ⟨m, hm, hnone⟩
    rw [hnonone2 m hm] at hnone
    exact Bool.noConfusion hnone

/-- C7 witness: the range theorem on a concrete two-grid batch (one grid with
a missing cell): the exposed range is the global min 3 and global max 9 over
the defined cells. -/
theorem heatmap_range_global_minmax_witness :
    fixed_zmin [[[some 5, none], [some 3, some 7]], [[some 9]]] =
        listMin (allDefinedCells [[[some 5, none], [some 3, some 7]], [[some 9]]]) ∧
      fixed_zmax [[[some 5, none], [some 3, some 7]], [[some 9]]] =
        listMax (allDefinedCells [[[some 5, none], [some 3, some 7]], [[some 9]]]) :=
  heatmap_range_global_minmax _ (by decide) (by decide)

/-- Insertion of a value into an ascending list, keeping it ascending. -/
def insertSorted (v : ℚ) : List ℚ → List ℚ
  | [] => [v]
  | w :: ws => if v ≤ w then v :: w :: ws else w :: insertSorted v ws

/-- Ascending sort, as `np.percentile` sorts its data internally. -/
def sortAsc (vs : List ℚ) : List ℚ := vs.foldr insertSorted []

/-- Model of `np.percentile(a, q)` with the default linear interpolation method: the
virtual index is `(n - 1) * q / 100`; the result interpolates linearly
between the sorted values at its floor and ceiling. -/
def percentile (vs : List ℚ) (q : ℚ) : Option ℚ :=
  match vs with
  | [] => none
  | _ :: _ =>
    let s := sortAsc vs
    let idx : ℚ := ((s.length - 1 : ℕ) : ℚ) * q / 100
    let lo : ℕ := (⌊idx⌋).toNat
    let vlo := s.getD lo 0
    let vhi := s.getD (lo + 1) vlo
    some (vlo + (idx - (lo : ℚ)) * (vhi - vlo))

/-- Flattening `np.nan_to_num(r, nan=0).flatten()` (`rain.py` line 50): missing cells
become 0 — they are *not* ignored. -/
def nanToNumFlat (g : Grid) : List ℚ := g.flatten.map (fun c => c.getD 0)

/-- Pool `all_rain_values` (`rain.py` line 50): the concatenation of the NaN-zeroed
flattened surfaces. -/
def all_rain_values (gs : List Grid) : List ℚ := (gs.map nanToNumFlat).flatten

/-- Bound `rain_cmin` (`rain.py` line 51): the rainfall batch's lower colour bound
is the constant 0, not a computed minimum. -/
def rain_cmin : ℚ := 0

/-- Bound `rain_cmax` (`rain.py` line 52): the upper colour bound is
`np.percentile(all_rain_values, 99.5)`. -/
def rain_cmax (gs : List Grid) : Option ℚ := percentile (all_rain_values gs) (995 / 10)

/-- C7 counterexample: for the one-surface rainfall batch [[0, 100]], the
exposed upper bound `rain_cmax` is the 99.5th percentile 99.5, while the
global maximum over the batch's defined cells is 100 — so the value range the
rainfall batch exposes is not the global min/max ignoring missing cells. -/
theorem rain_cmax_not_global_max :
    rain_cmax [[[some 0, some 100]]] = some (199 / 2) ∧
      fixed_zmax [[[some 0, some 100]]] = some 100 ∧ (199 / 2 : ℚ) ≠ 100 := by
  refine ⟨?_, ?_, by norm_num⟩
  · have hsort : sortAsc [0, 100] = [0, 100] := by
      norm_num [sortAsc, insertSorted]
    have hvals : all_rain_values [[[some 0, some 100]]] = [0, 100] := by
      norm_num [all_rain_values, nanToNumFlat]
    unfold rain_cmax
    rw [hvals]
    unfold percentile
    rw [hsort]
    norm_num
  · norm_num [fixed_zmax, nanmax, definedCells, listMax, maxBy,
      List.filterMap_cons, List.filterMap_nil]

end QM
